import Mathlib

/-
Verification of the quiz-generation pipeline (agents.py, chroma_service.py).

The Python code is shallowly embedded: Python floats are idealised as exact
rationals (ℚ), json.loads is embedded as an executable recursive-descent
parser over the same grammar (strict mode; non-finite literals NaN/Infinity
and float exponent re-formatting are outside the fragment exercised here),
and the OpenAI completion capability and the underlying Chroma collection
are parameters of type Except String _ (error = the call raised).
-/

/-- Whitespace characters of Python's re module ASCII class. -/
def pythonWs (c : Char) : Bool :=
  c = ' ' || c = '\t' || c = '\n' || c = '\r' || c = '\x0b' || c = '\x0c'

/-- Python str.strip with the default (whitespace) separator set. -/
def pyStrip (s : String) : String :=
  String.mk (((s.data.dropWhile pythonWs).reverse.dropWhile pythonWs).reverse)

/-- Python s[:k]. -/
def pyTake (s : String) (k : Nat) : String :=
  String.mk (s.data.take k)

/-- Clamp one Python slice endpoint to 0..n (negative indices count from the end). -/
def pySliceIdx (n : Nat) (i : Int) : Nat :=
  if i < 0 then (i + n).toNat else min i.toNat n

/-- Python s[a:b]. -/
def pySlice (s : String) (a b : Int) : String :=
  let n := s.data.length
  String.mk ((s.data.take (pySliceIdx n b)).drop (pySliceIdx n a))

/-- Python s.find(c): index of the first occurrence, or -1. -/
def pyFind (s : String) (c : Char) : Int :=
  match s.data.findIdx? (· = c) with
  | some i => (i : Int)
  | none => -1

/-- Python s.rfind(c): index of the last occurrence, or -1. -/
def pyRFind (s : String) (c : Char) : Int :=
  match s.data.reverse.findIdx? (· = c) with
  | some i => ((s.data.length - 1 - i : Nat) : Int)
  | none => -1

/-- Python needle in hay (substring containment). -/
def strContains (hay needle : String) : Bool :=
  (List.range (hay.data.length + 1)).any (fun i => needle.data.isPrefixOf (hay.data.drop i))

/-- Python separator.join, written recursively so proofs can unfold it. -/
def joinSep (sep : String) : List String → String
  | [] => ""
  | x :: xs =>
    match xs with
    | [] => x
    | _ :: _ => x ++ sep ++ joinSep sep xs

/-- Values produced by json.loads; a number carries whether Python would hold it
as a float (a fraction or exponent appeared in the literal). Objects are kept
in Python dict form: insertion order, duplicate keys already collapsed. -/
inductive Json where
  | null : Json
  | bool (b : Bool) : Json
  | num (val : ℚ) (isFloat : Bool) : Json
  | str (s : String) : Json
  | arr (elems : List Json) : Json
  | obj (fields : List (String × Json)) : Json

/-- Python dict lookup on the embedded object fields. -/
def dictGet (kvs : List (String × Json)) (k : String) : Option Json :=
  match kvs.find? (fun p => p.1 = k) with
  | some p => some p.2
  | none => none

/-- Python dict.get with a default. -/
def dictGetD (kvs : List (String × Json)) (k : String) (d : Json) : Json :=
  (dictGet kvs k).getD d

/-- Python dict assignment d[k] = v: overwrite in place keeping the key's
insertion position, else append (field lists never carry duplicate keys). -/
def dictSet : List (String × Json) → String → Json → List (String × Json)
  | [], k, v => [(k, v)]
  | (k', v') :: kvs, k, v =>
    if k' = k then (k, v) :: kvs else (k', v') :: dictSet kvs k v

/-- Python truthiness of a json.loads value. -/
def Json.truthy : Json → Bool
  | Json.null => false
  | Json.bool b => b
  | Json.num q _ => q ≠ 0
  | Json.str s => s ≠ ""
  | Json.arr xs => !xs.isEmpty
  | Json.obj kvs => !kvs.isEmpty

/-- JSON token whitespace (RFC 8259, as skipped by json.loads). -/
def jsonWs (c : Char) : Bool :=
  c = ' ' || c = '\t' || c = '\n' || c = '\r'

/-- Skip JSON whitespace. -/
def skipWs (cs : List Char) : List Char :=
  cs.dropWhile jsonWs

/-- Value of one hex digit. -/
def hexVal (c : Char) : Option Nat :=
  if '0' ≤ c ∧ c ≤ '9' then some (c.toNat - 48)
  else if 'a' ≤ c ∧ c ≤ 'f' then some (c.toNat - 87)
  else if 'A' ≤ c ∧ c ≤ 'F' then some (c.toNat - 55)
  else none

/-- Parse exactly four hex digits (the \uXXXX escape payload). -/
def parseHex4 : List Char → Option (Nat × List Char)
  | a :: b :: c :: d :: rest =>
    match hexVal a, hexVal b, hexVal c, hexVal d with
    | some x, some y, some z, some w => some (((x * 16 + y) * 16 + z) * 16 + w, rest)
    | _, _, _, _ => none
  | _ => none

/-- Body of a JSON string after the opening quote; strict mode rejects raw
control characters. Surrogate-pair recombination is idealised away. -/
def parseStringAux : Nat → List Char → List Char → Option (String × List Char)
  | 0, _, _ => none
  | _ + 1, _, [] => none
  | fuel + 1, acc, c :: rest =>
    if c = '"' then some (String.mk acc.reverse, rest)
    else if c = '\\' then
      match rest with
      | [] => none
      | e :: rest2 =>
        if e = '"' then parseStringAux fuel ('"' :: acc) rest2
        else if e = '\\' then parseStringAux fuel ('\\' :: acc) rest2
        else if e = '/' then parseStringAux fuel ('/' :: acc) rest2
        else if e = 'b' then parseStringAux fuel ('\x08' :: acc) rest2
        else if e = 'f' then parseStringAux fuel ('\x0c' :: acc) rest2
        else if e = 'n' then parseStringAux fuel ('\n' :: acc) rest2
        else if e = 'r' then parseStringAux fuel ('\r' :: acc) rest2
        else if e = 't' then parseStringAux fuel ('\t' :: acc) rest2
        else if e = 'u' then
          match parseHex4 rest2 with
          | some (n, rest3) => parseStringAux fuel (Char.ofNat n :: acc) rest3
          | none => none
        else none
    else if c.toNat < 32 then none
    else parseStringAux fuel (c :: acc) rest

/-- Accumulate a digit run as a natural number. -/
def digitsToNat (ds : List Char) : Nat :=
  ds.foldl (fun n c => n * 10 + (c.toNat - 48)) 0

/-- Integer part of a JSON number: 0, or a nonzero digit followed by digits
(leading zeros are rejected, as in json.loads). -/
def parseIntPart : List Char → Option (Nat × List Char)
  | [] => none
  | c :: rest =>
    if c = '0' then some (0, rest)
    else if c.isDigit then
      match rest.span Char.isDigit with
      | (ds, rest2) => some (digitsToNat (c :: ds), rest2)
    else none

/-- Ten to an integer power, as a rational. -/
def qpow10 (e : Int) : ℚ :=
  if 0 ≤ e then ((10 : ℚ) ^ e.toNat) else ((10 : ℚ) ^ (-e).toNat)⁻¹

/-- Parse a JSON number literal following Python's NUMBER_RE: optional sign,
integer part, optional fraction, optional exponent; groups that fail to match
consume nothing. -/
def parseNumber (cs : List Char) : Option (Json × List Char) :=
  let signPair : Bool × List Char := match cs with
    | '-' :: r => (true, r)
    | _ => (false, cs)
  match parseIntPart signPair.2 with
  | none => none
  | some (ip, cs2) =>
    let fracTriple : ℚ × Bool × List Char := match cs2 with
      | '.' :: r =>
        match r.span Char.isDigit with
        | ([], _) => (0, false, cs2)
        | (ds, r2) => ((digitsToNat ds : ℚ) / qpow10 ds.length, true, r2)
      | _ => (0, false, cs2)
    let cs3 := fracTriple.2.2
    let expTriple : Int × Bool × List Char := match cs3 with
      | e :: r =>
        if e = 'e' ∨ e = 'E' then
          let signedR : Int × List Char := match r with
            | '+' :: rr => (1, rr)
            | '-' :: rr => (-1, rr)
            | _ => (1, r)
          match signedR.2.span Char.isDigit with
          | ([], _) => (0, false, cs3)
          | (ds, r2) => (signedR.1 * (digitsToNat ds : Int), true, r2)
        else (0, false, cs3)
      | [] => (0, false, cs3)
    let mag : ℚ := ((ip : ℚ) + fracTriple.1) * qpow10 expTriple.1
    let q : ℚ := if signPair.1 then -mag else mag
    some (Json.num q (fracTriple.2.1 || expTriple.2.1), expTriple.2.2)

mutual

/-- Recursive-descent embedding of json.loads value parsing (fuel-indexed so it
is structural and evaluates inside the kernel). -/
def parseValue : Nat → List Char → Option (Json × List Char)
  | 0, _ => none
  | fuel + 1, cs =>
    match skipWs cs with
    | [] => none
    | c :: rest =>
      if c = 'n' then
        match rest with
        | 'u' :: 'l' :: 'l' :: r => some (Json.null, r)
        | _ => none
      else if c = 't' then
        match rest with
        | 'r' :: 'u' :: 'e' :: r => some (Json.bool true, r)
        | _ => none
      else if c = 'f' then
        match rest with
        | 'a' :: 'l' :: 's' :: 'e' :: r => some (Json.bool false, r)
        | _ => none
      else if c = '"' then
        match parseStringAux (rest.length + 1) [] rest with
        | some (s, r) => some (Json.str s, r)
        | none => none
      else if c = '[' then
        match skipWs rest with
        | ']' :: r => some (Json.arr [], r)
        | _ => parseItems fuel rest []
      else if c = '\x7b' then
        match skipWs rest with
        | '\x7d' :: r => some (Json.obj [], r)
        | _ => parseFields fuel rest []
      else if c = '-' ∨ c.isDigit then parseNumber (c :: rest)
      else none

/-- Comma-separated array elements up to the closing bracket. -/
def parseItems : Nat → List Char → List Json → Option (Json × List Char)
  | 0, _, _ => none
  | fuel + 1, cs, acc =>
    match parseValue fuel cs with
    | none => none
    | some (v, rest) =>
      match skipWs rest with
      | ',' :: r => parseItems fuel r (v :: acc)
      | ']' :: r => some (Json.arr (v :: acc).reverse, r)
      | _ => none

/-- Comma-separated object members up to the closing brace; duplicate keys
collapse with the last value winning, as in a Python dict. -/
def parseFields : Nat → List Char → List (String × Json) → Option (Json × List Char)
  | 0, _, _ => none
  | fuel + 1, cs, acc =>
    match skipWs cs with
    | '"' :: rest =>
      match parseStringAux (rest.length + 1) [] rest with
      | none => none
      | some (k, rest2) =>
        match skipWs rest2 with
        | ':' :: rest3 =>
          match parseValue fuel rest3 with
          | none => none
          | some (v, rest4) =>
            match skipWs rest4 with
            | ',' :: r => parseFields fuel r (dictSet acc k v)
            | '\x7d' :: r => some (Json.obj (dictSet acc k v), r)
            | _ => none
        | _ => none
    | _ => none

end

/-- Embedding of json.loads: parse one value and require only whitespace after
it; any failure is the JSONDecodeError outcome none. -/
def jsonLoads (s : String) : Option Json :=
  match parseValue (2 * s.data.length + 4) s.data with
  | some (v, rest) => if skipWs rest = [] then some v else none
  | none => none

/-- Word characters of the regex \b boundary (ASCII fragment). -/
def wordChar (c : Char) : Bool :=
  c.isAlphanum || c = '_'

/-- Case-insensitive prefix test on character lists. -/
def ciStartsWith : List Char → List Char → Bool
  | [], _ => true
  | _ :: _, [] => false
  | a :: as, b :: bs => (a.toLower = b.toLower) && ciStartsWith as bs

/-- A regex word boundary holds against this neighbouring character. -/
def boundaryOk : Option Char → Bool
  | none => true
  | some c => !wordChar c

/-- Embedding of re.search for a pattern \bw\b with the IGNORECASE flag,
for a pattern w made of word characters. -/
def searchWordCI (w : String) (s : String) : Bool :=
  (List.range s.data.length).any (fun i =>
    ciStartsWith w.data (s.data.drop i)
      && boundaryOk (if i = 0 then none else s.data.get? (i - 1))
      && boundaryOk (s.data.get? (i + w.data.length)))

/-- Left-pad a digit string with zeros to width k. -/
def padZeros (k : Nat) (s : String) : String :=
  String.mk (List.replicate (k - s.data.length) '0') ++ s

/-- Python str() of a float, idealised over exact decimal rationals (no
exponent re-formatting for extreme magnitudes). -/
def floatRender (q : ℚ) : String :=
  let sign := if q < 0 then "-" else ""
  let aq := |q|
  if aq.den = 1 then sign ++ toString aq.num ++ ".0"
  else
    match (List.range 40).find? (fun k => (aq * (10 : ℚ) ^ (k + 1)).den == 1) with
    | some k =>
      let p : Nat := 10 ^ (k + 1)
      let scaled : Nat := (aq * (10 : ℚ) ^ (k + 1)).num.toNat
      sign ++ toString (scaled / p) ++ "." ++ padZeros (k + 1) (toString (scaled % p))
    | none => sign ++ "inf"

/-- Python repr() of a string: single-quoted, escaping backslash and quote. -/
def reprStrPy (s : String) : String :=
  "\x27" ++ String.mk (s.data.foldr (fun c acc =>
    (if c = '\\' then ['\\', '\\'] else if c = '\x27' then ['\\', '\x27'] else [c]) ++ acc) [])
    ++ "\x27"

mutual

/-- Python repr() of a json.loads value. -/
def pyReprV : Json → String
  | Json.null => "None"
  | Json.bool true => "True"
  | Json.bool false => "False"
  | Json.num q false => toString q.num
  | Json.num q true => floatRender q
  | Json.str s => reprStrPy s
  | Json.arr xs => "[" ++ pyReprList xs ++ "]"
  | Json.obj kvs => "\x7b" ++ pyReprFields kvs ++ "\x7d"

/-- Comma-joined reprs of list elements. -/
def pyReprList : List Json → String
  | [] => ""
  | [x] => pyReprV x
  | x :: y :: xs => pyReprV x ++ ", " ++ pyReprList (y :: xs)

/-- Comma-joined reprs of dict items. -/
def pyReprFields : List (String × Json) → String
  | [] => ""
  | [(k, v)] => reprStrPy k ++ ": " ++ pyReprV v
  | (k, v) :: f :: kvs => reprStrPy k ++ ": " ++ pyReprV v ++ ", " ++ pyReprFields (f :: kvs)

end

/-- Python str() of a json.loads value, as an f-string renders it. -/
def pyStr : Json → String
  | Json.str s => s
  | v => pyReprV v

/-- Last index of a newline in a character list, if any. -/
def lastNlIdx (w : List Char) : Option Nat :=
  match w.reverse.findIdx? (· = '\n') with
  | some i => some (w.length - 1 - i)
  | none => none

/-- After a newline, try to complete a match of the separator regex
\n\s*\n: greedily the whitespace run, backtracking to its last newline.
Returns the remaining input after the match. -/
def trySep (rest : List Char) : Option (List Char) :=
  match lastNlIdx (rest.takeWhile pythonWs) with
  | some m => some (rest.drop (m + 1))
  | none => none

/-- Embedding of re.split for the paragraph separator pattern, scanning left
to right for non-overlapping leftmost matches (fuel keeps it structural). -/
def splitRei : Nat → List Char → List Char → List String
  | 0, rest, acc => [String.mk (acc.reverse ++ rest)]
  | _ + 1, [], acc => [String.mk acc.reverse]
  | fuel + 1, c :: rest, acc =>
    if c = '\n' then
      match trySep rest with
      | some rest2 => String.mk acc.reverse :: splitRei fuel rest2 []
      | none => splitRei fuel rest (c :: acc)
    else splitRei fuel rest (c :: acc)

/-- Python re.split of the blank-line pattern over the whole document. -/
def reSplitBlank (text : String) : List String :=
  splitRei (text.data.length + 1) text.data []

/-- The paragraph list of run_curriculum_agent: split on blank-line
boundaries, strip each piece, keep the non-empty ones. -/
def split_paragraphs (text : String) : List String :=
  ((reSplitBlank text).map pyStrip).filter (fun p => p ≠ "")

/-- A chunk produced by the curriculum agent's chunking loop. -/
structure Chunk where
  position : Nat
  text : String
deriving DecidableEq

/-- The greedy paragraph-accumulation loop of run_curriculum_agent. -/
def chunkLoop (chunk_size : Nat) : List String → String → Nat → List Chunk
  | [], current, position => if current = "" then [] else [⟨position, current⟩]
  | para :: rest, current, position =>
    let combined := if current = "" then para else current ++ "\n\n" ++ para
    if chunk_size < combined.length ∧ current ≠ "" then
      ⟨position, current⟩ :: chunkLoop chunk_size rest para (position + 1)
    else
      chunkLoop chunk_size rest combined position

/-- The chunking stage of run_curriculum_agent (the TextChunker). -/
def curriculum_chunks (chunk_size : Nat) (text : String) : List Chunk :=
  chunkLoop chunk_size (split_paragraphs text) "" 0

/-- Python exceptions that the embedded operations can surface. -/
inductive PyErr where
  | keyError : PyErr
  | typeError : PyErr
  | valueError (msg : String) : PyErr
  | jsonDecodeError : PyErr
  | completionError (msg : String) : PyErr
deriving DecidableEq

/-- Python subscript v[k] with a string key: dict lookup (KeyError when the
key is absent), TypeError on any non-dict value. -/
def subscriptStr (v : Json) (k : String) : Except PyErr Json :=
  match v with
  | Json.obj kvs =>
    match dictGet kvs k with
    | some x => Except.ok x
    | none => Except.error PyErr.keyError
  | _ => Except.error PyErr.typeError

/-- The question-list parsing tiers shared by run_quiz_generator_agent and
run_adaptive_agent: json.loads of the whole response; on JSONDecodeError the
substring from the first open bracket to the last close bracket; else a
ValueError with the agent's fixed message. A decode failure of the substring
itself propagates as the JSONDecodeError. -/
def parse_question_list (errMsg : String) (raw : String) : Except PyErr Json :=
  match jsonLoads raw with
  | some v => Except.ok v
  | none =>
    let a_start := pyFind raw '['
    let a_end := pyRFind raw ']' + 1
    if a_start ≥ 0 ∧ a_end > a_start then
      match jsonLoads (pySlice raw a_start a_end) with
      | some v => Except.ok v
      | none => Except.error PyErr.jsonDecodeError
    else Except.error (PyErr.valueError errMsg)

/-- Error message of the generator's unparseable-output ValueError. -/
def genParseMsg : String := "Could not parse quiz generator output as JSON"

/-- Error message of the adaptive agent's unparseable-output ValueError. -/
def adaptiveParseMsg : String := "Could not parse adaptive generator output"

/-- Modelled from the spec: QuestionGenerator's parsing policy as §4.5 words
it, for refinement comparison — tier one accepts only a JSON array, and the
final failure is a StructuredOutputError carrying the raw text. -/
def spec_parse_question_list (raw : String) : Except String Json :=
  match jsonLoads raw with
  | some (Json.arr xs) => Except.ok (Json.arr xs)
  | _ =>
    let a_start := pyFind raw '['
    let a_end := pyRFind raw ']' + 1
    if a_start ≥ 0 ∧ a_end > a_start then
      match jsonLoads (pySlice raw a_start a_end) with
      | some (Json.arr xs) => Except.ok (Json.arr xs)
      | _ => Except.error raw
    else Except.error raw

/-- The synthesized explanation text referencing the declared correct label. -/
def synthExplanation (kvs : List (String × Json)) : String :=
  "Based on the context, " ++ pyStr (dictGetD kvs ("correct") (Json.str ("A")))
    ++ " is the correct answer."

/-- The explanation backfill shared by both generation agents: replace a
missing or falsy explanation with the synthesized one. -/
def fix_explanation (kvs : List (String × Json)) : List (String × Json) :=
  let needs := match dictGet kvs ("explanation") with
    | none => true
    | some v => !v.truthy
  if needs then dictSet kvs ("explanation") (Json.str (synthExplanation kvs)) else kvs

/-- One question through run_quiz_generator_agent's repair loop body; any
non-dict question raises a TypeError at the membership test or assignment. -/
def gen_repair_one (q : Json) : Except PyErr Json :=
  match q with
  | Json.obj kvs => Except.ok (Json.obj (fix_explanation kvs))
  | _ => Except.error PyErr.typeError

/-- The choices backfill of run_adaptive_agent: substitute the four generic
placeholder options exactly when choices is missing or not a list. -/
def fix_choices (kvs : List (String × Json)) : List (String × Json) :=
  match dictGet kvs ("choices") with
  | some (Json.arr _) => kvs
  | _ => dictSet kvs ("choices")
      (Json.arr [Json.str ("Option A"), Json.str ("Option B"),
                 Json.str ("Option C"), Json.str ("Option D")])

/-- One question through run_adaptive_agent's repair loop body. -/
def adaptive_repair_one (q : Json) : Except PyErr Json :=
  match q with
  | Json.obj kvs => Except.ok (Json.obj (fix_choices (fix_explanation kvs)))
  | _ => Except.error PyErr.typeError

/-- Iterate a repair body over the parsed value the way the Python for-loop
does: arrays loop over elements; an empty dict or empty string loops zero
times and survives; any other value raises a TypeError on its first element
(or at iteration, for non-iterables). -/
def repair_list (fixOne : Json → Except PyErr Json) : Json → Except PyErr Json
  | Json.arr qs => (qs.mapM fixOne).map Json.arr
  | Json.obj [] => Except.ok (Json.obj [])
  | Json.obj (_ :: _) => Except.error PyErr.typeError
  | Json.str s => if s = "" then Except.ok (Json.str "") else Except.error PyErr.typeError
  | _ => Except.error PyErr.typeError

/-- Schema-repair pass of run_quiz_generator_agent (explanation only). -/
def gen_schema_repair (questions : Json) : Except PyErr Json :=
  repair_list gen_repair_one questions

/-- Schema-repair pass of run_adaptive_agent (explanation, then choices). -/
def adaptive_schema_repair (questions : Json) : Except PyErr Json :=
  repair_list adaptive_repair_one questions

/-- Python len() of a parsed value where the code applies it (sequences and
dicts; scalars are unreachable there). -/
def jsonPyLen : Json → Nat
  | Json.arr xs => xs.length
  | Json.obj kvs => kvs.length
  | Json.str s => s.data.length
  | _ => 0

/-- Chroma metadata dictionaries as stored and returned. -/
abbrev Meta := List (String × Json)

/-- Metadata written for one summarized chunk. -/
structure ChunkMeta where
  bookId : Int
  position : Nat
  summary : Json
  key_concepts : Json
  keywords : Json

/-- The record process_single_chunk hands to the index. -/
structure DbChunk where
  id : String
  text : String
  metadata : ChunkMeta

/-- The summarizer's two parse tiers: json.loads of the raw completion, then
of the substring from the first open brace to the last close brace. -/
def summarizer_parsed (raw : String) : Option Json :=
  match jsonLoads raw with
  | some v => some v
  | none =>
    let j_start := pyFind raw '\x7b'
    let j_end := pyRFind raw '\x7d' + 1
    if j_start ≥ 0 ∧ j_end > j_start then jsonLoads (pySlice raw j_start j_end)
    else none

/-- The chunk id string of process_single_chunk. -/
def chunkIdOf (book_id : Int) (chunk : Chunk) : String :=
  toString book_id ++ "-" ++ toString chunk.position

/-- The record built in process_single_chunk's exception handler: summary is
the first 200 characters of the chunk text. -/
def degraded_chunk_record (book_id : Int) (chunk : Chunk) : DbChunk :=
  ⟨chunkIdOf book_id chunk, chunk.text,
   ⟨book_id, chunk.position, Json.str (pyTake chunk.text 200), Json.str "", Json.str ""⟩⟩

/-- Embedding of process_single_chunk; the completion parameter is the
call_openai outcome (error = the call raised). A truthy non-dict parse hits
AttributeError on .get, which the enclosing handler turns into the degraded
record; a falsy or failed parse keeps the normal record shape with the raw
output's first 200 characters as summary. -/
def process_single_chunk (book_id : Int) (chunk : Chunk)
    (completion : Except String String) : DbChunk :=
  match completion with
  | Except.error _ => degraded_chunk_record book_id chunk
  | Except.ok raw =>
    match summarizer_parsed raw with
    | some p =>
      if p.truthy then
        match p with
        | Json.obj kvs =>
          ⟨chunkIdOf book_id chunk, chunk.text,
           ⟨book_id, chunk.position,
            dictGetD kvs ("summary") (Json.str (pyTake raw 200)),
            dictGetD kvs ("key_concepts") (Json.str ""),
            dictGetD kvs ("keywords") (Json.str "")⟩⟩
        | _ => degraded_chunk_record book_id chunk
      else
        ⟨chunkIdOf book_id chunk, chunk.text,
         ⟨book_id, chunk.position, Json.str (pyTake raw 200), Json.str "", Json.str ""⟩⟩
    | none =>
      ⟨chunkIdOf book_id chunk, chunk.text,
       ⟨book_id, chunk.position, Json.str (pyTake raw 200), Json.str "", Json.str ""⟩⟩

/-- The nested result dictionary a Chroma collection.query call returns; the
distances key is optional to mirror the membership test in the service. -/
structure ChromaRaw where
  documents : List (List String)
  metadatas : List (List Meta)
  ids : List (List String)
  distances : Option (List (List ℚ))

/-- The flattened result dictionary chroma_service.query returns. -/
structure QueryResp where
  documents : List String
  metadatas : List Meta
  ids : List String
  distances : List ℚ

/-- The empty result dictionary returned when the query body raises. -/
def emptyQueryResp : QueryResp := ⟨[], [], [], []⟩

/-- Embedding of chroma_service.query: the backend parameter is the
collection.query outcome. Every exception in the body — including the
IndexError when a present distances key holds an empty outer list — is
caught and turned into the empty result dictionary. -/
def chroma_query (backend : Except String ChromaRaw) : QueryResp :=
  match backend with
  | Except.error _ => emptyQueryResp
  | Except.ok r =>
    match r.distances with
    | some [] => emptyQueryResp
    | dopt =>
      ⟨(match r.documents with | [] => [] | d :: _ => d),
       (match r.metadatas with | [] => [] | m :: _ => m),
       (match r.ids with | [] => [] | i :: _ => i),
       (match dopt with | some (d :: _) => d | _ => [])⟩

/-- Python == between a metadata value and an int id (floats and bools
compare numerically; anything else, including absence, is unequal). -/
def pyEqInt (v : Option Json) (n : Int) : Bool :=
  match v with
  | some (Json.num q _) => q == (n : ℚ)
  | some (Json.bool b) => (if b then (1 : Int) else 0) == n
  | _ => false

/-- All query hits zipped with their metadata and distance by index, as the
generator's fallback uses them. -/
def zipped_chunks (cd : QueryResp) : List (String × Meta × Option ℚ) :=
  (cd.documents.zip cd.metadatas).enum.map (fun p => (p.2.1, p.2.2, cd.distances.get? p.1))

/-- The book-filtered hits of run_quiz_generator_agent. -/
def filtered_chunks (book_id : Int) (cd : QueryResp) : List (String × Meta × Option ℚ) :=
  (cd.documents.zip cd.metadatas).enum.filterMap (fun p =>
    if pyEqInt (dictGet p.2.2 ("bookId")) book_id then some (p.2.1, p.2.2, cd.distances.get? p.1)
    else none)

/-- The relevant-chunk selection of run_quiz_generator_agent: the filtered
hits, or every hit when the filter comes back empty. -/
def relevant_chunks_of (book_id : Int) (cd : QueryResp) : List (String × Meta × Option ℚ) :=
  if (filtered_chunks book_id cd).isEmpty then zipped_chunks cd else filtered_chunks book_id cd

/-- Result fields of run_quiz_generator_agent that the embedding tracks (the
random quiz_id and the log-only fields are omitted). -/
structure GenResult where
  book_id : Int
  topic : String
  n_questions : Nat
  chunks_used : Nat
  questions : Json
  model_raw_output : String

/-- Embedding of run_quiz_generator_agent over the index backend and the
completion outcome: input validation, retrieval with book filter and
fallback, question parsing tiers, then the explanation repair pass. -/
def run_quiz_generator_agent (book_id : Int) (topic : String)
    (backend : Except String ChromaRaw) (completion : Except String String) :
    Except PyErr GenResult :=
  if book_id = 0 ∨ topic = "" then Except.error (PyErr.valueError ("book_id and topic required"))
  else
    let relevant := relevant_chunks_of book_id (chroma_query backend)
    match completion with
    | Except.error e => Except.error (PyErr.completionError e)
    | Except.ok raw =>
      match parse_question_list genParseMsg raw with
      | Except.error e => Except.error e
      | Except.ok qjson =>
        match gen_schema_repair qjson with
        | Except.error e => Except.error e
        | Except.ok questions =>
          Except.ok ⟨book_id, topic, jsonPyLen questions, relevant.length, questions, raw⟩

/-- One labelled block of get_relevant_context's assembled context. -/
def context_part (i : Nat) (doc : String) (meta : Meta) : String :=
  "--- CHUNK " ++ toString (i + 1) ++ " (bookId="
    ++ pyStr (dictGetD meta ("bookId") (Json.str ("unknown")))
    ++ ", pos=" ++ pyStr (dictGetD meta ("position") (Json.str ("n/a")))
    ++ ") ---\n" ++ doc

/-- The context blocks get_relevant_context builds, one per returned
document, with no per-book filtering. -/
def context_parts_of (resp : QueryResp) : List String :=
  resp.documents.enum.map (fun p => context_part p.1 p.2 (resp.metadatas.getD p.1 []))

/-- Embedding of get_relevant_context applied to the flattened query result
(the retrieval step of validation and adaptive generation). -/
def get_relevant_context (resp : QueryResp) : String :=
  joinSep "\n\n" (context_parts_of resp)

/-- Modelled from the spec: ContextAssembler as §4.4 words it — results are
filtered to the requested document, falling back to the unfiltered set only
when the filtered set is empty. For refinement comparison with
get_relevant_context. -/
def spec_context_assemble (book_id : Int) (resp : QueryResp) : String :=
  let pairs := resp.documents.enum.map (fun p => (p.2, resp.metadatas.getD p.1 []))
  let filtered := pairs.filter (fun dm => pyEqInt (dictGet dm.2 ("bookId")) book_id)
  let chosen := if filtered.isEmpty then pairs else filtered
  joinSep "\n\n" (chosen.enum.map (fun p => context_part p.1 p.2.1 p.2.2))

/-- The validator's heuristic fallback: the raw text contains the word true
and not the word false, case-insensitively. -/
def heuristic_valid (raw : String) : Bool :=
  searchWordCI "true" raw && !searchWordCI "false" raw

/-- The validation value after the parse-or-heuristic step: any json.loads
value on success, else the default dict with the heuristic flag and the
first 300 characters of the raw text as reason. -/
def validation_of (raw : String) : Json :=
  match jsonLoads raw with
  | some v => v
  | none => Json.obj [("valid", Json.bool (heuristic_valid raw)),
                      ("reason", Json.str (pyTake raw 300))]

/-- One per-question validation outcome record. -/
structure VOutcome where
  question : Json
  validation : Json
  fixed_question : Option Json

/-- One iteration of run_quiz_validator_agent's loop, with the number of
validation and repair completions it issued. Reading validation["valid"]
can raise (KeyError or TypeError) when the parse produced the wrong shape;
a parsed JSON null repair, like a failed repair parse, leaves
fixed_question as Python None. -/
def validate_step (valO fixO : Json → Except String String) (auto_fix : Bool) (q : Json) :
    Except PyErr VOutcome × Nat × Nat :=
  match valO q with
  | Except.error e => (Except.error (PyErr.completionError e), 1, 0)
  | Except.ok raw =>
    let validation := validation_of raw
    match subscriptStr validation ("valid") with
    | Except.error e => (Except.error e, 1, 0)
    | Except.ok vflag =>
      if !vflag.truthy && auto_fix then
        match fixO q with
        | Except.error e => (Except.error (PyErr.completionError e), 1, 1)
        | Except.ok rawFix =>
          let fq : Option Json := match jsonLoads rawFix with
            | some Json.null => none
            | some v => some v
            | none => none
          (Except.ok ⟨q, validation, fq⟩, 1, 1)
      else (Except.ok ⟨q, validation, none⟩, 1, 0)

/-- Embedding of run_quiz_validator_agent's sequential loop over the
question list, threading the completion-call counts; a raised exception
stops the loop and propagates. -/
def run_quiz_validator (valO fixO : Json → Except String String) (auto_fix : Bool) :
    List Json → Except PyErr (List VOutcome) × Nat × Nat
  | [] => (Except.ok [], 0, 0)
  | q :: qs =>
    match validate_step valO fixO auto_fix q with
    | (Except.error e, a, b) => (Except.error e, a, b)
    | (Except.ok out, a, b) =>
      let rest := run_quiz_validator valO fixO auto_fix qs
      (rest.1.map (fun outs => out :: outs), a + rest.2.1, b + rest.2.2)

/-- Truthiness of an outcome's validation["valid"], as the report counts it. -/
def outcome_valid (o : VOutcome) : Bool :=
  match subscriptStr o.validation ("valid") with
  | Except.ok v => v.truthy
  | Except.error _ => false

/-- The report's valid_count. -/
def valid_count (outs : List VOutcome) : Nat :=
  outs.countP (fun o => outcome_valid o)

/-- The report's invalid_count. -/
def invalid_count (outs : List VOutcome) : Nat :=
  outs.countP (fun o => !outcome_valid o)

/-- The report's fixed_count. -/
def fixed_count (outs : List VOutcome) : Nat :=
  outs.countP (fun o => o.fixed_question.isSome)

/-- One stored student response; absent fields default to 0 in the sums. -/
structure StudentResponseR where
  time_ms : Option ℚ
  hints_used : Option ℚ

/-- The averaged metrics of run_adaptive_agent: none models an unknown
student; an empty history takes the neutral defaults 20000 and 0.5. -/
def adaptive_metrics (student_history : Option (List StudentResponseR)) : ℚ × ℚ :=
  match student_history with
  | none => (20000, 1/2)
  | some history =>
    if history.isEmpty then (20000, 1/2)
    else ((history.map (fun r => r.time_ms.getD 0)).sum / history.length,
          (history.map (fun r => r.hints_used.getD 0)).sum / history.length)

/-- The threshold policy of run_adaptive_agent's performance assessment. -/
def assess_performance (avg_time avg_hints : ℚ) : String :=
  if avg_time < 15000 ∧ avg_hints < 1/2 then "increase difficulty"
  else if avg_time > 30000 ∨ avg_hints > 1 then "decrease difficulty"
  else "maintain difficulty"

/-- The concurrency width of run_curriculum_agent's batch loop. -/
def batch_size : Nat := 3

/-- Consecutive groups of at most w elements (fuel-indexed for kernel
evaluation; the fuel is the list length, which always suffices). -/
def groupsOfFuel (w : Nat) : Nat → List α → List (List α)
  | _, [] => []
  | 0, l => [l]
  | fuel + 1, a :: l => (a :: l.take (w - 1)) :: groupsOfFuel w fuel (l.drop (w - 1))

/-- The batch partition chunks[i:i+batch_size] of run_curriculum_agent. -/
def groupsOf (w : Nat) (l : List α) : List (List α) :=
  groupsOfFuel w l.length l

/-- Embedding of run_curriculum_agent's fan-out: groups are processed in
order and asyncio.gather returns each group's results in task order, so the
aggregation is the ordered concatenation of per-group maps. -/
def run_curriculum_batches (worker : Chunk → DbChunk) (chunks : List Chunk) : List DbChunk :=
  ((groupsOf batch_size chunks).map (fun batch => batch.map worker)).flatten

/-- Concrete example values used by witnesses and counterexamples. -/
def exChoices3 : Json :=
  Json.obj [("question", Json.str ("Which planet is red?")),
            ("choices", Json.arr [Json.str ("Mars"), Json.str ("Venus"), Json.str ("Pluto")]),
            ("correct", Json.str ("A")),
            ("explanation", Json.str ("Mars looks red.")),
            ("hint", Json.str ("Think rust.")),
            ("difficulty", Json.str ("easy"))]

/-- A generated question lacking both choices and explanation. -/
def exNoChoices : Json :=
  Json.obj [("question", Json.str ("What is water made of?")),
            ("correct", Json.str ("B"))]

/-- The previous question after the generator's repair pass. -/
def exNoChoicesRepaired : Json :=
  Json.obj [("question", Json.str ("What is water made of?")),
            ("correct", Json.str ("B")),
            ("explanation", Json.str ("Based on the context, B is the correct answer."))]

/-- Length of a question's choices field when it is a list. -/
def choices_len (q : Json) : Option Nat :=
  match q with
  | Json.obj kvs =>
    match dictGet kvs ("choices") with
    | some (Json.arr xs) => some xs.length
    | _ => none
  | _ => none

/-- The spec's completion-response scenario for bracket extraction. -/
def scenarioRaw : String := "Here you go: [\x7b\"question\": \"Q1\"\x7d] thanks"

/-- A chunk fed to the summarizer in examples. -/
def exChunk : Chunk :=
  ⟨0, "Photosynthesis converts light energy into chemical energy in plants."⟩

/-- Metadata of a chunk owned by book 1. -/
def metaBook1 : Meta := [("bookId", Json.num 1 false), ("position", Json.num 0 false)]

/-- Metadata of a chunk owned by book 2. -/
def metaBook2 : Meta := [("bookId", Json.num 2 false), ("position", Json.num 4 false)]

/-- A flattened query result mixing documents of two books. -/
def respMixed : QueryResp :=
  ⟨["First book chunk text.", "Second book chunk text."],
   [metaBook1, metaBook2], ["1-0", "2-4"], [0, 0]⟩

/-- A flattened query result with no document of book 1. -/
def respNoMatch : QueryResp :=
  ⟨["Lone chunk."], [metaBook2], ["2-4"], []⟩

/-- A completion response carrying one well-formed question array. -/
def exGenRaw : String := "[\x7b\"question\": \"Q1\", \"explanation\": \"E1\"\x7d]"

/-- A question submitted to the validator in examples. -/
def exQuestion : Json := Json.obj [("question", Json.str ("What is two plus two?"))]

/-- A nonempty string stays nonempty under right append. -/
theorem str_append_ne_left (a b : String) (h : a ≠ "") : a ++ b ≠ "" := by
  intro hc
  apply h
  have hd := congrArg String.data hc
  rw [String.data_append] at hd
  have ha : a.data = [] := (List.append_eq_nil.mp hd).1
  exact String.ext ha

/-- A string of positive length is nonempty. -/
theorem str_ne_empty_of_pos (s : String) (h : 0 < s.length) : s ≠ "" := by
  intro hc
  subst hc
  simp at h

/-- Unfolding joinSep over a two-or-more element list. -/
theorem joinSep_cons_of_ne (sep a : String) (l : List String) (h : l ≠ []) :
    joinSep sep (a :: l) = a ++ sep ++ joinSep sep l := by
  cases l with
  | nil => exact absurd rfl h
  | cons b bs => rfl

/-- Merging a separator-joined pair at the head of joinSep. -/
theorem joinSep_merge (sep a b : String) (l : List String) :
    joinSep sep ((a ++ sep ++ b) :: l) = joinSep sep (a :: b :: l) := by
  cases l with
  | nil => rfl
  | cons c cs =>
    show (a ++ sep ++ b) ++ sep ++ joinSep sep (c :: cs) = a ++ sep ++ (b ++ sep ++ joinSep sep (c :: cs))
    simp [String.append_assoc]

/-- Unfolding equation of the chunking loop at an empty paragraph list. -/
theorem chunkLoop_nil (cs : Nat) (current : String) (pos : Nat) :
    chunkLoop cs [] current pos = if current = "" then [] else [⟨pos, current⟩] := rfl

/-- Unfolding equation of the chunking loop at a paragraph cons. -/
theorem chunkLoop_cons (cs : Nat) (para : String) (rest : List String)
    (current : String) (pos : Nat) :
    chunkLoop cs (para :: rest) current pos =
      if cs < (if current = "" then para else current ++ "\n\n" ++ para).length ∧ current ≠ "" then
        ⟨pos, current⟩ :: chunkLoop cs rest para (pos + 1)
      else chunkLoop cs rest (if current = "" then para else current ++ "\n\n" ++ para) pos := rfl

/-- The chunking loop emits at least one chunk when the buffer is nonempty. -/
theorem chunkLoop_ne_nil (cs : Nat) (paras : List String) :
    ∀ current pos, current ≠ "" → chunkLoop cs paras current pos ≠ [] := by
  induction paras with
  | nil =>
    intro current pos h
    rw [chunkLoop_nil, if_neg h]
    simp
  | cons para rest ih =>
    intro current pos h
    rw [chunkLoop_cons, if_neg h]
    split_ifs with hcond
    · simp
    · exact ih _ pos (str_append_ne_left _ _ (str_append_ne_left _ _ h))

/-- Coverage invariant of the chunking loop: joining the emitted chunk texts
with the paragraph separator reproduces the buffer followed by the remaining
paragraphs. -/
theorem chunkLoop_join (cs : Nat) (paras : List String) :
    ∀ current pos, current ≠ "" → (∀ p ∈ paras, p ≠ "") →
      joinSep "\n\n" ((chunkLoop cs paras current pos).map Chunk.text) =
        joinSep "\n\n" (current :: paras) := by
  induction paras with
  | nil =>
    intro current pos h _
    rw [chunkLoop_nil, if_neg h]
    rfl
  | cons para rest ih =>
    intro current pos h hps
    have hpara : para ≠ "" := hps para (by simp)
    have hrest : ∀ p ∈ rest, p ≠ "" := fun p hp => hps p (by simp [hp])
    rw [chunkLoop_cons, if_neg h]
    split_ifs with hcond
    · have hne : chunkLoop cs rest para (pos + 1) ≠ [] := chunkLoop_ne_nil cs rest para (pos + 1) hpara
      have hmapne : (chunkLoop cs rest para (pos + 1)).map Chunk.text ≠ [] := by
        simpa using hne
      rw [List.map_cons, joinSep_cons_of_ne _ _ _ hmapne, ih para (pos + 1) hpara hrest,
        joinSep_cons_of_ne _ _ (para :: rest) (by simp)]
    · rw [ih _ pos (str_append_ne_left _ _ (str_append_ne_left _ _ h)) hrest, joinSep_merge]

/-- Position invariant of the chunking loop: emitted positions count up from
the starting position. -/
theorem chunkLoop_positions (cs : Nat) (paras : List String) :
    ∀ current pos, (chunkLoop cs paras current pos).map Chunk.position =
      List.range' pos (chunkLoop cs paras current pos).length := by
  induction paras with
  | nil =>
    intro current pos
    rw [chunkLoop_nil]
    split_ifs <;> simp
  | cons para rest ih =>
    intro current pos
    rw [chunkLoop_cons]
    split_ifs with hcond <;>
      first
        | (simp only [List.map_cons, List.length_cons, List.range'_succ]; rw [ih _ _])
        | exact ih _ pos

/-- A buffer already longer than the chunk size is emitted as its own chunk. -/
theorem chunkLoop_self_long (cs : Nat) (paras : List String) :
    ∀ current pos, cs < current.length →
      current ∈ (chunkLoop cs paras current pos).map Chunk.text := by
  induction paras with
  | nil =>
    intro current pos hlen
    rw [chunkLoop_nil, if_neg (str_ne_empty_of_pos current (Nat.lt_of_le_of_lt (Nat.zero_le cs) hlen))]
    simp
  | cons para rest ih =>
    intro current pos hlen
    have h : current ≠ "" := str_ne_empty_of_pos current (Nat.lt_of_le_of_lt (Nat.zero_le cs) hlen)
    rw [chunkLoop_cons, if_neg h, if_pos]
    · simp
    · constructor
      · calc cs < current.length := hlen
          _ ≤ (current ++ "\n\n").length := by simp
          _ ≤ (current ++ "\n\n" ++ para).length := by simp
      · exact h

/-- A paragraph longer than the chunk size always ends up whole as the text
of one of the emitted chunks. -/
theorem chunkLoop_mem_long (cs : Nat) (paras : List String) :
    ∀ current pos p, p ∈ paras → cs < p.length →
      p ∈ (chunkLoop cs paras current pos).map Chunk.text := by
  induction paras with
  | nil => intro _ _ _ hp _; cases hp
  | cons para rest ih =>
    intro current pos p hp hlen
    rcases List.mem_cons.mp hp with hpe | hpr
    · subst hpe
      by_cases h : current = ""
      · subst h
        rw [chunkLoop_cons, if_pos (show ("" : String) = "" from rfl), if_neg (by simp)]
        exact chunkLoop_self_long cs rest p pos hlen
      · rw [chunkLoop_cons, if_neg h,
          if_pos ⟨Nat.lt_of_lt_of_le hlen (by rw [String.length_append]; exact Nat.le_add_left _ _), h⟩,
          List.map_cons]
        exact List.mem_cons_of_mem _ (chunkLoop_self_long cs rest p (pos + 1) hlen)
    · rw [chunkLoop_cons]
      split_ifs with hcond <;>
        first
          | (rw [List.map_cons]; exact List.mem_cons_of_mem _ (ih _ _ p hpr hlen))
          | exact ih _ pos p hpr hlen

/-- Starting the chunking loop with an empty buffer just loads the first
paragraph. -/
theorem chunkLoop_empty_start (cs : Nat) (p : String) (ps : List String) (pos : Nat) :
    chunkLoop cs (p :: ps) "" pos = chunkLoop cs ps p pos := by
  rw [chunkLoop_cons, if_pos (show ("" : String) = "" from rfl), if_neg (by simp)]

/-- Every paragraph the splitter returns is nonempty. -/
theorem split_paragraphs_ne_empty (text : String) :
    ∀ q ∈ split_paragraphs text, q ≠ "" := by
  intro q hq
  unfold split_paragraphs at hq
  exact of_decide_eq_true (List.mem_filter.mp hq).2

/-- C2: TextChunker correctness — positions are dense from 0 in emission
order; joining the chunk texts with the paragraph separator reproduces the
split paragraph sequence; a paragraph longer than the target size survives
whole as its own chunk text; and the spec's concrete scenario holds. -/
theorem C2_text_chunker (chunk_size : Nat) (text : String) :
    (curriculum_chunks chunk_size text).map Chunk.position =
        List.range (curriculum_chunks chunk_size text).length ∧
    joinSep "\n\n" ((curriculum_chunks chunk_size text).map Chunk.text) =
        joinSep "\n\n" (split_paragraphs text) ∧
    (∀ p, p ∈ split_paragraphs text → chunk_size < p.length →
        p ∈ (curriculum_chunks chunk_size text).map Chunk.text) ∧
    curriculum_chunks 5 ("Para A.\n\nPara B.") = [⟨0, "Para A."⟩, ⟨1, "Para B."⟩] := by
  refine ⟨?_, ?_, ?_, by decide⟩
  · rw [List.range_eq_range']
    exact chunkLoop_positions chunk_size _ "" 0
  · cases hp : split_paragraphs text with
    | nil =>
      unfold curriculum_chunks
      rw [hp, chunkLoop_nil, if_pos rfl]
      rfl
    | cons p ps =>
      unfold curriculum_chunks
      rw [hp, chunkLoop_empty_start]
      exact chunkLoop_join chunk_size ps p 0
        (split_paragraphs_ne_empty text p (by rw [hp]; simp))
        (fun q hq => split_paragraphs_ne_empty text q (by rw [hp]; simp [hq]))
  · exact fun p hp hlen => chunkLoop_mem_long chunk_size _ "" 0 p hp hlen

/-- Witness for C2 at a concrete oversized paragraph. -/
theorem C2_text_chunker_witness :
    "This paragraph is much longer than five characters." ∈
      ((curriculum_chunks 5
        ("This paragraph is much longer than five characters.\n\nEnd.")).map Chunk.text) :=
  (C2_text_chunker 5 ("This paragraph is much longer than five characters.\n\nEnd.")).2.2.1
    ("This paragraph is much longer than five characters.") (by decide) (by decide)

/-- C3: the difficulty directive is a pure threshold function of the averaged
metrics — increase iff time < 15000 and hints < 0.5, decrease iff time >
30000 or hints > 1.0, maintain otherwise; unknown students and empty
histories take the neutral defaults, and the spec's three probes evaluate as
stated. -/
theorem C3_difficulty_policy (t h : ℚ) :
    (assess_performance t h = "increase difficulty" ↔ (t < 15000 ∧ h < 1/2)) ∧
    (assess_performance t h = "decrease difficulty" ↔ (t > 30000 ∨ h > 1)) ∧
    (assess_performance t h = "maintain difficulty" ↔
      (¬(t < 15000 ∧ h < 1/2) ∧ ¬(t > 30000 ∨ h > 1))) ∧
    adaptive_metrics none = (20000, 1/2) ∧
    adaptive_metrics (some []) = (20000, 1/2) ∧
    assess_performance 10000 (1/5) = "increase difficulty" ∧
    assess_performance 35000 0 = "decrease difficulty" ∧
    assess_performance 20000 (1/2) = "maintain difficulty" := by
  have hexcl : (t > 30000 ∨ h > 1) → ¬(t < 15000 ∧ h < 1/2) := by
    rintro (ht | hh) ⟨h1, h2⟩ <;> linarith
  refine ⟨?_, ?_, ?_, rfl, by simp [adaptive_metrics], ?_, ?_, ?_⟩
  · unfold assess_performance
    split_ifs with h1 h2
    · exact iff_of_true rfl h1
    · exact iff_of_false (by simp) h1
    · exact iff_of_false (by simp) h1
  · unfold assess_performance
    split_ifs with h1 h2
    · exact iff_of_false (by simp) (fun hd => hexcl hd h1)
    · exact iff_of_true rfl h2
    · exact iff_of_false (by simp) h2
  · unfold assess_performance
    split_ifs with h1 h2
    · exact iff_of_false (by simp) (fun hc => hc.1 h1)
    · exact iff_of_false (by simp) (fun hc => hc.2 h2)
    · exact iff_of_true rfl ⟨h1, h2⟩
  · unfold assess_performance
    rw [if_pos (by norm_num)]
  · unfold assess_performance
    rw [if_neg (by norm_num), if_pos (by norm_num)]
  · unfold assess_performance
    rw [if_neg (by norm_num), if_neg (by norm_num)]

/-- Witness for C3 extracting a concrete probe. -/
theorem C3_difficulty_policy_witness :
    assess_performance 10000 (1/5) = "increase difficulty" :=
  (C3_difficulty_policy 0 0).2.2.2.2.2.1

/-- Flattening the batch partition restores the original list. -/
theorem groupsOfFuel_flatten (w : Nat) :
    ∀ (fuel : Nat) (l : List α), l.length ≤ fuel → (groupsOfFuel w fuel l).flatten = l := by
  intro fuel
  induction fuel with
  | zero =>
    intro l hl
    cases l with
    | nil => rfl
    | cons a l => simp at hl
  | succ fuel ih =>
    intro l hl
    cases l with
    | nil => rfl
    | cons a l =>
      show ((a :: l.take (w - 1)) :: groupsOfFuel w fuel (l.drop (w - 1))).flatten = a :: l
      rw [List.flatten_cons, ih (l.drop (w - 1)) (by simp at hl ⊢; omega),
        List.cons_append, List.take_append_drop]

/-- Every group of the batch partition has at most w elements (w positive,
fuel covering the list). -/
theorem groupsOfFuel_sizes (w : Nat) (hw : 0 < w) :
    ∀ (fuel : Nat) (l : List α), l.length ≤ fuel → ∀ g ∈ groupsOfFuel w fuel l, g.length ≤ w := by
  intro fuel
  induction fuel with
  | zero =>
    intro l hl g hg
    cases l with
    | nil => cases hg
    | cons a l => simp at hl
  | succ fuel ih =>
    intro l hl g hg
    cases l with
    | nil => cases hg
    | cons a l =>
      rcases List.mem_cons.mp hg with hge | hgr
      · subst hge
        have : (l.take (w - 1)).length ≤ w - 1 := by simp
        simp only [List.length_cons]
        omega
      · exact ih _ (by simp at hl ⊢; omega) g hgr

/-- Flattening the partition of a whole list restores it. -/
theorem groupsOf_flatten (w : Nat) (l : List α) : (groupsOf w l).flatten = l :=
  groupsOfFuel_flatten w l.length l (Nat.le_refl _)

/-- Group sizes of the partition of a whole list. -/
theorem groupsOf_sizes (w : Nat) (hw : 0 < w) (l : List α) :
    ∀ g ∈ groupsOf w l, g.length ≤ w :=
  groupsOfFuel_sizes w hw l.length l (Nat.le_refl _)

/-- Every summarizer result keeps the chunk text, position, owning book and
the book-position id, whatever the completion outcome and parse path. -/
theorem process_single_chunk_fields (b : Int) (c : Chunk) (comp : Except String String) :
    (process_single_chunk b c comp).text = c.text ∧
    (process_single_chunk b c comp).metadata.position = c.position ∧
    (process_single_chunk b c comp).metadata.bookId = b ∧
    (process_single_chunk b c comp).id = chunkIdOf b c := by
  rcases comp with e | raw
  · exact ⟨rfl, rfl, rfl, rfl⟩
  · rcases hsp : summarizer_parsed raw with _ | p
    · simp [process_single_chunk, hsp]
    · simp only [process_single_chunk, hsp]
      split_ifs with ht
      · cases p <;> simp [degraded_chunk_record]
      · simp

/-- C9: the scheduler partitions the chunk list into consecutive groups of at
most batch_size, the ordered concatenation of group results equals the plain
map over the input (slot k corresponds to input chunk k), and each result
slot keeps its chunk's position metadata. -/
theorem C9_batch_ordering (worker : Chunk → DbChunk) (chunks : List Chunk) :
    (groupsOf batch_size chunks).flatten = chunks ∧
    (∀ g ∈ groupsOf batch_size chunks, g.length ≤ batch_size) ∧
    run_curriculum_batches worker chunks = chunks.map worker ∧
    ∀ (comp : Chunk → Except String String) (book : Int),
      (run_curriculum_batches (fun c => process_single_chunk book c (comp c)) chunks).map
          (fun d => d.metadata.position) = chunks.map Chunk.position := by
  have hmap : ∀ w : Chunk → DbChunk, run_curriculum_batches w chunks = chunks.map w := by
    intro w
    unfold run_curriculum_batches
    rw [← List.map_flatten, groupsOf_flatten]
  refine ⟨groupsOf_flatten batch_size chunks,
    groupsOf_sizes batch_size (by decide) chunks, hmap worker, ?_⟩
  intro comp book
  rw [hmap _, List.map_map]
  exact List.map_congr_left (fun c _ => (process_single_chunk_fields book c (comp c)).2.1)

/-- Witness for C9 at a concrete batch. -/
theorem C9_batch_ordering_witness :
    ([Chunk.mk 0 "a", Chunk.mk 1 "b", Chunk.mk 2 "c"] : List Chunk).length ≤ batch_size :=
  (C9_batch_ordering (degraded_chunk_record 1)
      [⟨0, "a"⟩, ⟨1, "b"⟩, ⟨2, "c"⟩, ⟨3, "d"⟩]).2.1
    [⟨0, "a"⟩, ⟨1, "b"⟩, ⟨2, "c"⟩] (by decide)

/-- Counting a Boolean predicate and its negation covers the list. -/
theorem countP_bool_split (p : α → Bool) (l : List α) :
    l.countP p + l.countP (fun a => !p a) = l.length := by
  induction l with
  | nil => rfl
  | cons a l ih =>
    by_cases h : p a <;> simp [List.countP_cons, h, ← ih] <;> omega

/-- One validator iteration issues exactly one validation call and at most
one repair call, and any surviving outcome only carries a fixed question
when its validation flag was falsy. -/
theorem validate_step_spec (valO fixO : Json → Except String String) (af : Bool) (q : Json) :
    (validate_step valO fixO af q).2.1 = 1 ∧
    (validate_step valO fixO af q).2.2 ≤ 1 ∧
    ∀ out, (validate_step valO fixO af q).1 = Except.ok out →
      (out.fixed_question.isSome = true → outcome_valid out = false) := by
  unfold validate_step
  rcases valO q with e | raw
  · exact ⟨rfl, by dsimp only; omega, fun out h => by simp at h⟩
  · dsimp only
    rcases hsub : subscriptStr (validation_of raw) ("valid") with e | vflag
    · exact ⟨rfl, by dsimp only; omega, fun out h => by simp at h⟩
    · dsimp only
      by_cases hb : (!vflag.truthy && af) = true
      · rw [if_pos hb]
        rcases fixO q with e | rawFix
        · exact ⟨rfl, by dsimp only; omega, fun out h => by simp at h⟩
        · refine ⟨rfl, by dsimp only; omega, fun out h hfix => ?_⟩
          simp only [Except.ok.injEq] at h
          subst h
          unfold outcome_valid
          simp only [hsub]
          have := (Bool.and_eq_true _ _).mp hb
          simpa using this.1
      · rw [if_neg hb]
        refine ⟨rfl, by dsimp only; omega, fun out h hfix => ?_⟩
        simp only [Except.ok.injEq] at h
        subst h
        simp at hfix

/-- Run-level invariant of the validator loop: call counts are bounded by
the question count, a successful run used exactly one validation call per
question and produced one outcome per question, and fixed questions only
appear on outcomes whose validation flag is falsy. -/
theorem run_quiz_validator_spec (valO fixO : Json → Except String String) (af : Bool) :
    ∀ qs : List Json,
      (run_quiz_validator valO fixO af qs).2.1 ≤ qs.length ∧
      (run_quiz_validator valO fixO af qs).2.2 ≤ qs.length ∧
      ∀ outs, (run_quiz_validator valO fixO af qs).1 = Except.ok outs →
        (run_quiz_validator valO fixO af qs).2.1 = qs.length ∧
        outs.length = qs.length ∧
        ∀ o ∈ outs, o.fixed_question.isSome = true → outcome_valid o = false := by
  intro qs
  induction qs with
  | nil =>
    refine ⟨by simp [run_quiz_validator], by simp [run_quiz_validator], fun outs h => ?_⟩
    simp only [run_quiz_validator, Except.ok.injEq] at h
    subst h
    exact ⟨rfl, rfl, fun o ho => absurd ho (List.not_mem_nil o)⟩
  | cons q qs ih =>
    obtain ⟨hs1, hs2, hs3⟩ := validate_step_spec valO fixO af q
    obtain ⟨ih1, ih2, ih3⟩ := ih
    rcases hstep : validate_step valO fixO af q with ⟨res, a, b⟩
    rw [hstep] at hs1 hs2 hs3
    simp only at hs1 hs2 hs3
    rcases res with e | out
    · refine ⟨?_, ?_, fun outs h => ?_⟩
      · simp only [run_quiz_validator, hstep, List.length_cons]
        omega
      · simp only [run_quiz_validator, hstep, List.length_cons]
        omega
      · simp only [run_quiz_validator, hstep] at h
        simp at h
    · refine ⟨?_, ?_, fun outs h => ?_⟩
      · simp only [run_quiz_validator, hstep, List.length_cons]
        omega
      · simp only [run_quiz_validator, hstep, List.length_cons]
        omega
      · simp only [run_quiz_validator, hstep] at h ⊢
        rcases hrest : (run_quiz_validator valO fixO af qs).1 with e' | outs'
        · rw [hrest] at h
          simp [Except.map] at h
        · rw [hrest] at h
          simp only [Except.map] at h
          simp only [Except.ok.injEq] at h
          subst h
          obtain ⟨hr1, hr2, hr3⟩ := ih3 outs' hrest
          refine ⟨by rw [List.length_cons]; omega, by simp [hr2], ?_⟩
          intro o ho hfix
          rcases List.mem_cons.mp ho with hoe | hor
          · subst hoe
            exact hs3 o rfl hfix
          · exact hr3 o hor hfix

/-- C6: with auto-fix enabled the validator issues at most one validation
and at most one repair completion per question (exactly one validation per
question on a completed run), and the aggregate counts satisfy
valid + invalid = N and fixed ≤ invalid. -/
theorem C6_validator_bounded (valO fixO : Json → Except String String) (qs : List Json) :
    (run_quiz_validator valO fixO true qs).2.1 ≤ qs.length ∧
    (run_quiz_validator valO fixO true qs).2.2 ≤ qs.length ∧
    ∀ outs, (run_quiz_validator valO fixO true qs).1 = Except.ok outs →
      (run_quiz_validator valO fixO true qs).2.1 = qs.length ∧
      valid_count outs + invalid_count outs = qs.length ∧
      fixed_count outs ≤ invalid_count outs := by
  obtain ⟨h1, h2, h3⟩ := run_quiz_validator_spec valO fixO true qs
  refine ⟨h1, h2, fun outs h => ?_⟩
  obtain ⟨ha, hlen, hpt⟩ := h3 outs h
  refine ⟨ha, ?_, ?_⟩
  · rw [← hlen]
    exact countP_bool_split (fun o => outcome_valid o) outs
  · exact List.countP_mono_left (fun o ho hf => by
      show (!outcome_valid o) = true
      rw [hpt o ho hf]
      rfl)

/-- Dict lookup through a cons cell. -/
theorem dictGet_cons (k' : String) (v' : Json) (kvs : List (String × Json)) (q : String) :
    dictGet ((k', v') :: kvs) q = if k' = q then some v' else dictGet kvs q := by
  by_cases h : k' = q <;> simp [dictGet, List.find?, h]

/-- Reading back a key after a dict assignment. -/
theorem dictGet_dictSet (kvs : List (String × Json)) (k : String) (v : Json) (q : String) :
    dictGet (dictSet kvs k v) q = if q = k then some v else dictGet kvs q := by
  induction kvs with
  | nil =>
    rw [show dictSet [] k v = [(k, v)] from rfl, dictGet_cons]
    split_ifs <;>
      first
        | rfl
        | (rename_i ha hb; exact absurd ha.symm hb)
        | (rename_i ha hb; exact absurd hb.symm ha)
  | cons p kvs ih =>
    rcases p with ⟨k', v'⟩
    by_cases hk : k' = k
    · subst hk
      rw [show dictSet ((k', v') :: kvs) k' v = (k', v) :: kvs from by simp [dictSet],
        dictGet_cons, dictGet_cons]
      split_ifs <;>
        first
          | rfl
          | (rename_i ha hb; exact absurd ha.symm hb)
          | (rename_i ha hb; exact absurd hb.symm ha)
    · rw [show dictSet ((k', v') :: kvs) k v = (k', v') :: dictSet kvs k v from by
        simp [dictSet, hk], dictGet_cons, dictGet_cons, ih]
      split_ifs <;>
        first
          | rfl
          | (rename_i ha hb; exact absurd (ha.trans hb) hk)

/-- The synthesized explanation is never the empty string. -/
theorem synthExplanation_ne_empty (kvs : List (String × Json)) :
    synthExplanation kvs ≠ "" :=
  str_append_ne_left _ _ (str_append_ne_left _ _ (by decide))

/-- After the explanation backfill the explanation key is present and truthy. -/
theorem fix_explanation_truthy (kvs : List (String × Json)) :
    ∃ v, dictGet (fix_explanation kvs) ("explanation") = some v ∧ v.truthy = true := by
  unfold fix_explanation
  dsimp only
  rcases hdg : dictGet kvs ("explanation") with _ | v
  · refine ⟨Json.str (synthExplanation kvs), ?_, ?_⟩
    · rw [if_pos rfl, dictGet_dictSet, if_pos rfl]
    · simpa [Json.truthy] using synthExplanation_ne_empty kvs
  · by_cases ht : v.truthy = true
    · rw [if_neg (by simp [ht])]
      exact ⟨v, hdg, ht⟩
    · refine ⟨Json.str (synthExplanation kvs), ?_, ?_⟩
      · rw [if_pos (by simp at ht; simp [ht]), dictGet_dictSet, if_pos rfl]
      · simpa [Json.truthy] using synthExplanation_ne_empty kvs

/-- The explanation backfill leaves every other key unchanged. -/
theorem fix_explanation_other (kvs : List (String × Json)) (k : String)
    (hk : k ≠ "explanation") :
    dictGet (fix_explanation kvs) k = dictGet kvs k := by
  unfold fix_explanation
  dsimp only
  split_ifs with h
  · rw [dictGet_dictSet, if_neg hk]
  · rfl

/-- After the adaptive choices backfill the choices key holds a list. -/
theorem fix_choices_isArr (kvs : List (String × Json)) :
    ∃ xs, dictGet (fix_choices kvs) ("choices") = some (Json.arr xs) := by
  unfold fix_choices
  rcases hdg : dictGet kvs ("choices") with _ | v
  · exact ⟨_, by rw [dictGet_dictSet, if_pos rfl]⟩
  · cases v with
    | arr xs => exact ⟨xs, hdg⟩
    | null => exact ⟨_, by rw [dictGet_dictSet, if_pos rfl]⟩
    | bool b => exact ⟨_, by rw [dictGet_dictSet, if_pos rfl]⟩
    | num q f => exact ⟨_, by rw [dictGet_dictSet, if_pos rfl]⟩
    | str s => exact ⟨_, by rw [dictGet_dictSet, if_pos rfl]⟩
    | obj o => exact ⟨_, by rw [dictGet_dictSet, if_pos rfl]⟩

/-- A question whose choices field already is a list passes the adaptive
choices backfill unchanged. -/
theorem fix_choices_unchanged (kvs : List (String × Json)) (xs : List Json)
    (h : dictGet kvs ("choices") = some (Json.arr xs)) : fix_choices kvs = kvs := by
  unfold fix_choices
  rw [h]

/-- A question whose choices field is missing or not a list receives exactly
the four generic placeholder options. -/
theorem fix_choices_replaced (kvs : List (String × Json))
    (h : ∀ xs, dictGet kvs ("choices") ≠ some (Json.arr xs)) :
    dictGet (fix_choices kvs) ("choices") =
      some (Json.arr [Json.str ("Option A"), Json.str ("Option B"),
                      Json.str ("Option C"), Json.str ("Option D")]) := by
  unfold fix_choices
  rcases hdg : dictGet kvs ("choices") with _ | v
  · rw [dictGet_dictSet, if_pos rfl]
  · cases v with
    | arr xs => exact absurd hdg (h xs)
    | null => rw [dictGet_dictSet, if_pos rfl]
    | bool b => rw [dictGet_dictSet, if_pos rfl]
    | num q f => rw [dictGet_dictSet, if_pos rfl]
    | str s => rw [dictGet_dictSet, if_pos rfl]
    | obj o => rw [dictGet_dictSet, if_pos rfl]

/-- Mapping a per-object repair over a list of question objects. -/
theorem mapM_obj_repair (fixOne : Json → Except PyErr Json)
    (g : List (String × Json) → List (String × Json))
    (hfix : ∀ kvs, fixOne (Json.obj kvs) = Except.ok (Json.obj (g kvs))) :
    ∀ qs : List (List (String × Json)),
      (qs.map Json.obj).mapM fixOne = Except.ok ((qs.map (fun kvs => Json.obj (g kvs)))) := by
  intro qs
  induction qs with
  | nil => rfl
  | cons kvs rest ih =>
    rw [List.map_cons, List.mapM_cons, hfix kvs]
    rw [List.map_cons]
    simp only [ih]
    rfl

/-- C1 counterexample: the repair passes do not close the 4-choice schema —
run_adaptive_agent's pass keeps a 3-element choices list untouched, and
run_quiz_generator_agent's pass never adds a choices field at all. -/
theorem C1_schema_closure_counterexample :
    adaptive_schema_repair (Json.arr [exChoices3]) = Except.ok (Json.arr [exChoices3]) ∧
    choices_len exChoices3 = some 3 ∧
    gen_schema_repair (Json.arr [exNoChoices]) = Except.ok (Json.arr [exNoChoicesRepaired]) ∧
    choices_len exNoChoicesRepaired = none :=
  ⟨by with_unfolding_all rfl, rfl, by with_unfolding_all rfl, rfl⟩

/-- C1 amended: the generator's repair pass guarantees only a present, truthy
explanation (other keys untouched); the adaptive pass additionally guarantees
the choices key holds some list, substituting the four generic placeholders
exactly when choices was missing or not a list — neither pass enforces four
choices or a correct label, and on a list of question objects each pass is
the per-object field repair mapped in order. -/
theorem C1_schema_repair_amended :
    (∀ kvs : List (String × Json),
      ∃ v, dictGet (fix_explanation kvs) ("explanation") = some v ∧ v.truthy = true) ∧
    (∀ (kvs : List (String × Json)) (k : String), k ≠ "explanation" →
      dictGet (fix_explanation kvs) k = dictGet kvs k) ∧
    (∀ kvs : List (String × Json),
      ∃ xs, dictGet (fix_choices (fix_explanation kvs)) ("choices") = some (Json.arr xs)) ∧
    (∀ (kvs : List (String × Json)) (xs : List Json),
      dictGet kvs ("choices") = some (Json.arr xs) → fix_choices kvs = kvs) ∧
    (∀ kvs : List (String × Json), (∀ xs, dictGet kvs ("choices") ≠ some (Json.arr xs)) →
      dictGet (fix_choices kvs) ("choices") =
        some (Json.arr [Json.str ("Option A"), Json.str ("Option B"),
                        Json.str ("Option C"), Json.str ("Option D")])) ∧
    (∀ qs : List (List (String × Json)),
      gen_schema_repair (Json.arr (qs.map Json.obj)) =
        Except.ok (Json.arr (qs.map (fun kvs => Json.obj (fix_explanation kvs)))) ∧
      adaptive_schema_repair (Json.arr (qs.map Json.obj)) =
        Except.ok (Json.arr (qs.map (fun kvs => Json.obj (fix_choices (fix_explanation kvs)))))) := by
  refine ⟨fix_explanation_truthy, fix_explanation_other,
    fun kvs => fix_choices_isArr (fix_explanation kvs), fix_choices_unchanged,
    fix_choices_replaced, fun qs => ⟨?_, ?_⟩⟩
  · unfold gen_schema_repair repair_list
    dsimp only
    rw [mapM_obj_repair gen_repair_one fix_explanation (fun kvs => rfl) qs]
    rfl
  · unfold adaptive_schema_repair repair_list
    dsimp only
    rw [mapM_obj_repair adaptive_repair_one (fun kvs => fix_choices (fix_explanation kvs))
      (fun kvs => rfl) qs]
    rfl

/-- Witness for C1's amended statement at a concrete question. -/
theorem C1_schema_repair_amended_witness :
    fix_choices [("question", Json.str ("Which planet is red?")),
                 ("choices", Json.arr [Json.str ("Mars"), Json.str ("Venus"), Json.str ("Pluto")]),
                 ("correct", Json.str ("A"))] =
      [("question", Json.str ("Which planet is red?")),
       ("choices", Json.arr [Json.str ("Mars"), Json.str ("Venus"), Json.str ("Pluto")]),
       ("correct", Json.str ("A"))] :=
  C1_schema_repair_amended.2.2.2.1
    [("question", Json.str ("Which planet is red?")),
     ("choices", Json.arr [Json.str ("Mars"), Json.str ("Venus"), Json.str ("Pluto")]),
     ("correct", Json.str ("A"))]
    [Json.str ("Mars"), Json.str ("Venus"), Json.str ("Pluto")] (by with_unfolding_all rfl)

/-- Witness for C6 at concrete oracles (invalid verdict, failed repair parse). -/
theorem C6_validator_bounded_witness :
    (run_quiz_validator (fun _ => Except.ok ("\x7b\"valid\": false\x7d"))
        (fun _ => Except.ok ("not json")) true [exQuestion]).2.1 =
      ([exQuestion] : List Json).length ∧
    valid_count [⟨exQuestion, Json.obj [("valid", Json.bool false)], none⟩] +
        invalid_count [⟨exQuestion, Json.obj [("valid", Json.bool false)], none⟩] =
      ([exQuestion] : List Json).length ∧
    fixed_count [⟨exQuestion, Json.obj [("valid", Json.bool false)], none⟩] ≤
      invalid_count [⟨exQuestion, Json.obj [("valid", Json.bool false)], none⟩] :=
  (C6_validator_bounded (fun _ => Except.ok ("\x7b\"valid\": false\x7d"))
      (fun _ => Except.ok ("not json")) [exQuestion]).2.2
    [⟨exQuestion, Json.obj [("valid", Json.bool false)], none⟩] (by with_unfolding_all rfl)

/-- C10: well-formed JSON of the wrong shape crashes the validator — an
object without a valid key raises KeyError, a bare array raises TypeError,
at the validation["valid"] read; neither is recovered. -/
theorem C10_validator_wrong_shape :
    jsonLoads ("\x7b\"reason\": \"unsupported\"\x7d") =
        some (Json.obj [("reason", Json.str ("unsupported"))]) ∧
    (run_quiz_validator (fun _ => Except.ok ("\x7b\"reason\": \"unsupported\"\x7d"))
        (fun _ => Except.ok ("\x7b\x7d")) true [exQuestion]).1 =
      Except.error PyErr.keyError ∧
    jsonLoads ("[true]") = some (Json.arr [Json.bool true]) ∧
    (run_quiz_validator (fun _ => Except.ok ("[true]"))
        (fun _ => Except.ok ("\x7b\x7d")) true [exQuestion]).1 =
      Except.error PyErr.typeError :=
  ⟨by with_unfolding_all rfl, by with_unfolding_all rfl,
   by with_unfolding_all rfl, by with_unfolding_all rfl⟩

/-- C4 counterexample: tier one is a plain json.loads, so a bare JSON object
parses successfully instead of failing an array parse; and the
no-bracket failure carries a fixed message that does not name the raw text. -/
theorem C4_parse_counterexample :
    parse_question_list genParseMsg ("\x7b\x7d") = Except.ok (Json.obj []) ∧
    spec_parse_question_list ("\x7b\x7d") = Except.error ("\x7b\x7d") ∧
    parse_question_list genParseMsg ("no array here") =
      Except.error (PyErr.valueError genParseMsg) ∧
    strContains genParseMsg ("no array here") = false :=
  ⟨by with_unfolding_all rfl, by with_unfolding_all rfl,
   by with_unfolding_all rfl, by with_unfolding_all rfl⟩

/-- C4 amended: tier one accepts any strict json.loads value; every error
outcome implies the strict parse failed; the bracket-extraction scenario
recovers the array from surrounding prose; and with no bracket pair the
operation fails with the agent's fixed ValueError message. -/
theorem C4_parse_tiers_amended :
    (∀ (m raw : String) (v : Json), jsonLoads raw = some v →
        parse_question_list m raw = Except.ok v) ∧
    (∀ (m raw : String) (e : PyErr), parse_question_list m raw = Except.error e →
        jsonLoads raw = none) ∧
    parse_question_list genParseMsg scenarioRaw =
      Except.ok (Json.arr [Json.obj [("question", Json.str ("Q1"))]]) ∧
    parse_question_list adaptiveParseMsg ("nothing structured") =
      Except.error (PyErr.valueError adaptiveParseMsg) := by
  refine ⟨?_, ?_, by with_unfolding_all rfl, by with_unfolding_all rfl⟩
  · intro m raw v h
    unfold parse_question_list
    rw [h]
  · intro m raw e h
    unfold parse_question_list at h
    rcases hj : jsonLoads raw with _ | v
    · rfl
    · rw [hj] at h
      simp at h

/-- Witness for C4's amended statement at a concrete array. -/
theorem C4_parse_tiers_amended_witness :
    parse_question_list genParseMsg ("[true]") = Except.ok (Json.arr [Json.bool true]) :=
  C4_parse_tiers_amended.1 genParseMsg ("[true]") (Json.arr [Json.bool true])
    (by with_unfolding_all rfl)

/-- C5 counterexample: when both parse tiers fail, the degraded summary is
the first 200 characters of the completion output, not of the chunk text. -/
theorem C5_summarizer_counterexample :
    (process_single_chunk 7 exChunk (Except.ok ("summary unavailable"))).metadata.summary =
        Json.str ("summary unavailable") ∧
    pyTake exChunk.text 200 ≠ "summary unavailable" :=
  ⟨by with_unfolding_all rfl, by with_unfolding_all decide⟩

/-- C5 amended: summarization is total and every record keeps the chunk
text, its position and the owning book; a raised completion call degrades to
the chunk-text summary record, while a double parse failure keeps the
normal record shape with the completion output's first 200 characters as
summary and empty concepts and keywords. -/
theorem C5_summarizer_amended (book_id : Int) (chunk : Chunk)
    (completion : Except String String) :
    (process_single_chunk book_id chunk completion).text = chunk.text ∧
    (process_single_chunk book_id chunk completion).metadata.position = chunk.position ∧
    (process_single_chunk book_id chunk completion).metadata.bookId = book_id ∧
    (∀ e, completion = Except.error e →
        process_single_chunk book_id chunk completion = degraded_chunk_record book_id chunk) ∧
    (∀ raw, completion = Except.ok raw → summarizer_parsed raw = none →
        (process_single_chunk book_id chunk completion).metadata.summary =
            Json.str (pyTake raw 200) ∧
        (process_single_chunk book_id chunk completion).metadata.key_concepts = Json.str "" ∧
        (process_single_chunk book_id chunk completion).metadata.keywords = Json.str "") := by
  obtain ⟨h1, h2, h3, _⟩ := process_single_chunk_fields book_id chunk completion
  refine ⟨h1, h2, h3, ?_, ?_⟩
  · intro e he
    subst he
    rfl
  · intro raw hr hparse
    subst hr
    simp [process_single_chunk, hparse]

/-- Witness for C5's amended statement at a concrete parse failure. -/
theorem C5_summarizer_amended_witness :
    (process_single_chunk 3 exChunk (Except.ok ("plain text"))).metadata.summary =
      Json.str (pyTake ("plain text") 200) :=
  ((C5_summarizer_amended 3 exChunk (Except.ok ("plain text"))).2.2.2.2 ("plain text") rfl
    (by with_unfolding_all rfl)).1

/-- Every hit surviving the generator's book filter carries the requested
book id in its metadata. -/
theorem filtered_chunks_match (book : Int) (cd : QueryResp) :
    ∀ x ∈ filtered_chunks book cd, pyEqInt (dictGet x.2.1 ("bookId")) book = true := by
  intro x hx
  unfold filtered_chunks at hx
  rcases List.mem_filterMap.mp hx with ⟨p, hp, hpx⟩
  by_cases h : pyEqInt (dictGet p.2.2 ("bookId")) book = true
  · rw [if_pos h] at hpx
    cases hpx
    exact h
  · rw [if_neg h] at hpx
    cases hpx

/-- C7 counterexample: the context assembled for validation and adaptive
generation (get_relevant_context) keeps every retrieved document, including
one owned by another book, unlike the spec's filtered assembler. -/
theorem C7_context_filter_counterexample :
    get_relevant_context respMixed ≠ spec_context_assemble 1 respMixed ∧
    strContains (get_relevant_context respMixed) ("Second book chunk text.") = true ∧
    strContains (spec_context_assemble 1 respMixed) ("Second book chunk text.") = false := by
  have ht : strContains (get_relevant_context respMixed) ("Second book chunk text.") = true := by
    with_unfolding_all rfl
  have hf : strContains (spec_context_assemble 1 respMixed) ("Second book chunk text.") = false := by
    with_unfolding_all rfl
  refine ⟨fun h => ?_, ht, hf⟩
  rw [h, hf] at ht
  exact Bool.false_ne_true ht

/-- C7 amended: only run_quiz_generator_agent filters hits by book — with
fallback to every hit when the filter comes back empty — while the retrieval
used by validation and adaptive generation assembles one context block per
returned document with no per-book filtering. -/
theorem C7_retrieval_amended :
    (∀ (book : Int) (cd : QueryResp),
      (filtered_chunks book cd ≠ [] →
        relevant_chunks_of book cd = filtered_chunks book cd ∧
        ∀ x ∈ relevant_chunks_of book cd, pyEqInt (dictGet x.2.1 ("bookId")) book = true) ∧
      (filtered_chunks book cd = [] → relevant_chunks_of book cd = zipped_chunks cd)) ∧
    (∀ resp : QueryResp, (context_parts_of resp).length = resp.documents.length) := by
  refine ⟨fun book cd => ⟨fun hne => ?_, fun he => ?_⟩, fun resp => ?_⟩
  · have heq : relevant_chunks_of book cd = filtered_chunks book cd := by
      unfold relevant_chunks_of
      rw [if_neg (by simpa [List.isEmpty_iff] using hne)]
    exact ⟨heq, fun x hx => filtered_chunks_match book cd x (heq ▸ hx)⟩
  · unfold relevant_chunks_of
    rw [if_pos (by simpa [List.isEmpty_iff] using he)]
  · simp [context_parts_of]

/-- Witness for C7's amended statement: empty filter falls back to all hits. -/
theorem C7_retrieval_amended_witness :
    relevant_chunks_of 1 respNoMatch = zipped_chunks respNoMatch :=
  ((C7_retrieval_amended.1 1 respNoMatch).2) (by with_unfolding_all rfl)

/-- C8 counterexample: a raised index query does not propagate — the service
swallows it into an empty result set and generation still succeeds on the
completion output alone. -/
theorem C8_index_failure_counterexample :
    run_quiz_generator_agent 1 ("t") (Except.error ("chroma connection refused"))
        (Except.ok exGenRaw) =
      Except.ok ⟨1, "t", 1, 0,
        Json.arr [Json.obj [("question", Json.str ("Q1")), ("explanation", Json.str ("E1"))]],
        exGenRaw⟩ := by
  with_unfolding_all rfl

/-- C8 amended: a raised completion call propagates out of top-level
generation (and out of the validator loop as soon as it occurs), while a
raised index query is caught inside chroma_service.query, which returns the
empty result dictionary instead. -/
theorem C8_failure_propagation_amended :
    (∀ e : String, chroma_query (Except.error e) = emptyQueryResp) ∧
    (∀ (book : Int) (topic : String) (backend : Except String ChromaRaw) (e : String),
      ¬(book = 0 ∨ topic = "") →
      run_quiz_generator_agent book topic backend (Except.error e) =
        Except.error (PyErr.completionError e)) ∧
    (∀ (e : String) (q : Json) (qs : List Json)
        (fixO : Json → Except String String) (af : Bool),
      run_quiz_validator (fun _ => Except.error e) fixO af (q :: qs) =
        (Except.error (PyErr.completionError e), 1, 0)) := by
  refine ⟨fun e => rfl, ?_, fun e q qs fixO af => rfl⟩
  intro book topic backend e h
  unfold run_quiz_generator_agent
  rw [if_neg h]

/-- Witness for C8's amended statement at a concrete completion failure. -/
theorem C8_failure_propagation_amended_witness :
    run_quiz_generator_agent 2 ("physics") (Except.ok ⟨[], [], [], none⟩)
        (Except.error ("rate limited")) =
      Except.error (PyErr.completionError ("rate limited")) :=
  C8_failure_propagation_amended.2.1 2 ("physics") (Except.ok ⟨[], [], [], none⟩)
    ("rate limited") (by simp)
